import Mathlib

/-!
# Verification of the DICOM event broker adapter

Shallow embedding, in Lean 4, of the core of the
`dicom_event_broker_adapter` repository:

* `health_check_mqtt.py` (present under `src/`): the `HealthStatus`
  aggregation state machine and the `MQTTHealthChecker` background loop.
* the topic codec, the protocol service handlers, the subscription
  manager and the MQTT→protocol translation path of
  `ups_event_mqtt_broker_adapter.py`.  That module itself is not part of
  the available sources (only its test suite is), so those operations are
  modelled from the specification (`spec.md` §4.2–§4.6), as recorded in
  the doc comment of each such definition.

Python strings are modelled as `List Char` wherever the code splits or
joins on separator characters (the topic codec); elsewhere plain `String`
(which in this Lean version is a wrapper around `List Char`) is used.
-/

namespace DicomBrokerAdapter

/-! ## Topic codec (spec §4.2)

Modelled from the spec: `_construct_mqtt_topic` and the topic-parsing
side of `process_mqtt_message` live in `ups_event_mqtt_broker_adapter.py`,
which is absent from the sources; only its tests are available.
-/

/-- Python's `str.split(sep)` for a single-character separator, on the
`List Char` view of strings.  Like Python (and unlike splitters that drop
empty fields), `splitOnChar '/' "/a/b"` = `["", "a", "b"]` and
`splitOnChar '/' ""` = `[""]`. -/
def splitOnChar (c : Char) : List Char → List (List Char)
  | [] => [[]]
  | x :: xs =>
    let r := splitOnChar c xs
    if x = c then [] :: r else (x :: r.headD []) :: r.tail

/-- Modelled from the spec (§4.2): `encode` for a workitem-scoped event,
`/workitems/{workitemId}/{subtopic}` (the repository's
`_construct_mqtt_topic("Workitem", workitem_uid=id, workitem_subtopic=sub)`). -/
def constructWorkitemTopic (workitemId subtopic : List Char) : List Char :=
  "/workitems/".data ++ workitemId ++ "/".data ++ subtopic

/-- Modelled from the spec (§4.2): `decode(topic)` parses strictly the
3-segment form `/workitems/<id>/<subtopic>`; any other shape (wrong
segment count, wrong prefix) is invalid (`none`). -/
def decodeTopic (topic : List Char) : Option (List Char × List Char) :=
  match splitOnChar '/' topic with
  | [pre, scope, id, sub] =>
    if pre = [] ∧ scope = "workitems".data then some (id, sub) else none
  | _ => none

/-- `splitOnChar` never returns the empty list of segments. -/
theorem splitOnChar_ne_nil (c : Char) (l : List Char) : splitOnChar c l ≠ [] := by
  induction l with
  | nil => simp [splitOnChar]
  | cons x xs ih =>
    simp only [splitOnChar]
    by_cases hx : x = c
    · simp [hx]
    · simp [hx]

/-- Splitting a string that starts with a separator-free block followed by
the separator gives that block as the first segment. -/
theorem splitOnChar_append (c : Char) (a rest : List Char)
    (ha : ∀ x ∈ a, x ≠ c) :
    splitOnChar c (a ++ c :: rest) = a :: splitOnChar c rest := by
  induction a with
  | nil => simp [splitOnChar]
  | cons x xs ih =>
    have hx : x ≠ c := ha x (by simp)
    have ih' := ih (fun y hy => ha y (by simp [hy]))
    simp only [List.cons_append, splitOnChar, if_neg hx, ih']
    simp [ih']

/-- A string containing no separator splits into a single segment. -/
theorem splitOnChar_no_sep (c : Char) (l : List Char) (h : ∀ x ∈ l, x ≠ c) :
    splitOnChar c l = [l] := by
  induction l with
  | nil => rfl
  | cons x xs ih =>
    have hx : x ≠ c := h x (by simp)
    have ih' := ih (fun y hy => h y (by simp [hy]))
    simp [splitOnChar, hx, ih']

/-- Decoding inverts encoding for any slash-free workitem id and subtopic. -/
theorem decodeTopic_constructWorkitemTopic (id sub : List Char)
    (hid : ∀ c ∈ id, c ≠ '/') (hsub : ∀ c ∈ sub, c ≠ '/') :
    decodeTopic (constructWorkitemTopic id sub) = some (id, sub) := by
  have hw : ∀ x ∈ "workitems".data, x ≠ '/' := by decide
  have hsplit : splitOnChar '/' (constructWorkitemTopic id sub)
      = [[], "workitems".data, id, sub] := by
    have e1 : "/workitems/".data = '/' :: ("workitems".data ++ ['/']) := rfl
    have e2 : "/".data = ['/'] := rfl
    unfold constructWorkitemTopic
    rw [e1, e2]
    have eassoc : ('/' :: ("workitems".data ++ ['/'])) ++ id ++ ['/'] ++ sub
        = '/' :: ("workitems".data ++ ('/' :: (id ++ ('/' :: sub)))) := by
      simp [List.append_assoc]
    rw [eassoc]
    rw [show ∀ l, splitOnChar '/' ('/' :: l) = [] :: splitOnChar '/' l from
        fun l => by simp [splitOnChar]]
    rw [splitOnChar_append '/' "workitems".data _ hw,
        splitOnChar_append '/' id _ hid,
        splitOnChar_no_sep '/' sub hsub]
  unfold decodeTopic
  rw [hsplit]
  simp

example : splitOnChar '/' "/a/b".data = ["".data, "a".data, "b".data] := by decide

example :
    constructWorkitemTopic "1.2.3.4".data "state".data
      = "/workitems/1.2.3.4/state".data := by decide

example :
    decodeTopic "/workitems/1.2.3.4/state".data
      = some ("1.2.3.4".data, "state".data) := by decide

example : decodeTopic "/invalid/topic".data = none := by decide

/-! ## Health status aggregation (`health_check_mqtt.py`, class `HealthStatus`) -/

/-- One entry of `HealthStatus.component_statuses`
(`{"status": ..., "last_check": ..., "details": ...}`).  The opaque
`details` payload is modelled as a list of key/value strings. -/
structure ComponentInfo where
  status : String
  last_check : Nat
  details : List (String × String)

/-- Python dict assignment `m[k] = v` on an insertion-ordered association
list: replace the binding in place when the key is present, append it
otherwise. -/
def dictInsert {α : Type} : List (String × α) → String → α → List (String × α)
  | [], k, v => [(k, v)]
  | p :: ps, k, v => if p.1 = k then (k, v) :: ps else p :: dictInsert ps k v

/-- `HealthStatus.__init__`: statuses of the two tracked components, the
open-ended component map, and the derived overall status.  Timestamps are
modelled as naturals supplied by the caller (`time.time()`). -/
structure HealthStatus where
  mqtt_status : String := "unknown"
  mqtt_last_check : Nat := 0
  dimse_status : String := "unknown"
  dimse_last_check : Nat := 0
  component_statuses : List (String × ComponentInfo) := []
  overall_status : String := "unknown"

/-- The body of `HealthStatus._update_overall_status`, translated clause
by clause as a pure function of the two tracked statuses and the list of
named component statuses: first the core `if/elif/elif/else` over
`mqtt_status`/`dimse_status`, then the second `if/elif` pass over the
component statuses. -/
def pythonOverallStatus (m d : String) (comps : List String) : String :=
  let o1 :=
    if m = "error" ∨ d = "error" then "error"
    else if m = "degraded" ∨ d = "degraded" then "degraded"
    else if m = "healthy" ∧ d = "healthy" then "healthy"
    else "unknown"
  if "error" ∈ comps ∧ o1 ≠ "error" then "error"
  else if "degraded" ∈ comps ∧ o1 ∉ ["error"] then "degraded"
  else o1

/-- `HealthStatus._update_overall_status`. -/
def HealthStatus.update_overall_status (h : HealthStatus) : HealthStatus :=
  { h with overall_status := (pythonOverallStatus h.mqtt_status h.dimse_status
      (h.component_statuses.map (fun p => p.2.status))) }

/-- `HealthStatus.update_mqtt_status`. -/
def HealthStatus.update_mqtt_status (h : HealthStatus) (status : String) (now : Nat) :
    HealthStatus :=
  HealthStatus.update_overall_status { h with mqtt_status := status, mqtt_last_check := now }

/-- `HealthStatus.update_dimse_status`. -/
def HealthStatus.update_dimse_status (h : HealthStatus) (status : String) (now : Nat) :
    HealthStatus :=
  HealthStatus.update_overall_status { h with dimse_status := status, dimse_last_check := now }

/-- `HealthStatus.update_component_status`. -/
def HealthStatus.update_component_status (h : HealthStatus) (component status : String)
    (now : Nat) (details : List (String × String)) : HealthStatus :=
  HealthStatus.update_overall_status
    { h with component_statuses :=
        dictInsert h.component_statuses component ⟨status, now, details⟩ }

/-- The spec's overall-status derivation (spec §4.5), written from its
words: `error` if any of bus, protocol-server or a named component is
`error`; else `degraded` if any is `degraded`; else `healthy` only if
both bus and protocol-server are exactly `healthy`; else `unknown`. -/
def specOverallStatus (mqtt dimse : String) (comps : List String) : String :=
  if mqtt = "error" ∨ dimse = "error" ∨ "error" ∈ comps then "error"
  else if mqtt = "degraded" ∨ dimse = "degraded" ∨ "degraded" ∈ comps then "degraded"
  else if mqtt = "healthy" ∧ dimse = "healthy" then "healthy"
  else "unknown"

/-- The statuses of the named components of a `HealthStatus`. -/
def HealthStatus.componentList (h : HealthStatus) : List String :=
  h.component_statuses.map (fun p => p.2.status)

/-- The code's two-pass recomputation agrees with the spec's single-pass
precedence derivation, for arbitrary status strings. -/
theorem pythonOverallStatus_eq_spec (m d : String) (cs : List String) :
    pythonOverallStatus m d cs = specOverallStatus m d cs := by
  unfold pythonOverallStatus specOverallStatus
  by_cases me : m = "error" <;> by_cases de : d = "error" <;>
    by_cases ce : ("error" : String) ∈ cs <;>
    by_cases md : m = "degraded" <;> by_cases dd : d = "degraded" <;>
    by_cases cd : ("degraded" : String) ∈ cs <;>
    by_cases mh : m = "healthy" <;> by_cases dh : d = "healthy" <;>
    simp_all

/-- The overall status after `_update_overall_status` is the spec's
derivation over the (unchanged) component fields. -/
theorem update_overall_status_eq_spec (h : HealthStatus) :
    (HealthStatus.update_overall_status h).overall_status
      = specOverallStatus h.mqtt_status h.dimse_status h.componentList :=
  pythonOverallStatus_eq_spec h.mqtt_status h.dimse_status h.componentList

/-- C1: after any of `update_mqtt_status`, `update_dimse_status` or
`update_component_status`, `overall_status` equals the precedence
derivation (`error` if any component is `error`, else `degraded` if any
is `degraded`, else `healthy` iff both tracked components are exactly
`healthy`, else `unknown`) over the current component statuses. -/
theorem health_overall_status_invariant
    (h : HealthStatus) (status component : String) (now : Nat)
    (details : List (String × String)) :
    ((h.update_mqtt_status status now).overall_status
        = specOverallStatus (h.update_mqtt_status status now).mqtt_status
            (h.update_mqtt_status status now).dimse_status
            (h.update_mqtt_status status now).componentList)
    ∧ ((h.update_dimse_status status now).overall_status
        = specOverallStatus (h.update_dimse_status status now).mqtt_status
            (h.update_dimse_status status now).dimse_status
            (h.update_dimse_status status now).componentList)
    ∧ ((h.update_component_status component status now details).overall_status
        = specOverallStatus
            (h.update_component_status component status now details).mqtt_status
            (h.update_component_status component status now details).dimse_status
            (h.update_component_status component status now details).componentList) :=
  ⟨update_overall_status_eq_spec _, update_overall_status_eq_spec _,
    update_overall_status_eq_spec _⟩

/-- C2: for every slash-free workitem id and subtopic in
`{state, cancelrequest}`, decoding the topic produced by encoding yields
back exactly that id and subtopic (DICOM UIDs never contain a slash). -/
theorem topic_encode_decode_roundtrip (id sub : List Char)
    (hsub : sub = "state".data ∨ sub = "cancelrequest".data)
    (hid : ∀ c ∈ id, c ≠ '/') :
    decodeTopic (constructWorkitemTopic id sub) = some (id, sub) := by
  apply decodeTopic_constructWorkitemTopic _ _ hid
  rcases hsub with h | h <;> subst h <;> decide

/-- Witness for C2 at the concrete input of the spec's example. -/
theorem topic_encode_decode_roundtrip_witness :
    decodeTopic (constructWorkitemTopic "1.2.3.4".data "state".data)
      = some ("1.2.3.4".data, "state".data) :=
  topic_encode_decode_roundtrip "1.2.3.4".data "state".data (Or.inl rfl) (by decide)

/-! ## The health checker background loop
(`health_check_mqtt.py`, class `MQTTHealthChecker`)

`_run_checks` is a `while self.running` loop.  A cycle is modelled as a
pure step over a `CheckerState`, parameterised by a `CycleEnv` describing
the behaviour of the external world during that cycle (broker
connectivity, probe results, and which call — if any — raises an
exception).  Exceptions escaping to the loop's `try` are modelled as
occurring at statement boundaries; the side effects of a cycle are
collected as a trace of `Action`s. -/

def HEALTH_TOPIC_BASE : String := "health/dicom_broker"

def HEALTH_TOPIC_STATUS : String := HEALTH_TOPIC_BASE ++ "/status"

def HEALTH_TOPIC_MQTT : String := HEALTH_TOPIC_BASE ++ "/mqtt"

def HEALTH_TOPIC_DIMSE : String := HEALTH_TOPIC_BASE ++ "/dimse"

def HEALTH_TOPIC_HEARTBEAT : String := HEALTH_TOPIC_BASE ++ "/heartbeat"

/-- The test topic used by `_check_mqtt`'s trial publish (its random
UUID suffix is elided). -/
def HEALTH_TOPIC_TEST : String := HEALTH_TOPIC_BASE ++ "/test"

/-- Message payloads published by the checker; timestamps and `node_id`
fields are elided from the JSON bodies, the fields the claims are about
are kept. -/
inductive Payload where
  | statusReport (overall mqtt dimse : String)
  | mqttReport (st : String)
  | dimseReport (st : String)
  | heartbeat (count : Nat)
  | testMsg
deriving DecidableEq

/-- Observable side effects of the checker. -/
inductive Action where
  | publish (topic : String) (p : Payload) (qos : Nat) (retain : Bool)
  | sleep (secs : Nat)
  | logWarning (msg : String)
  | logError (msg : String)
deriving DecidableEq

/-- Statement of `_run_checks`'s `try` block at which an exception can
escape to the loop boundary. -/
inductive RaisePoint where
  | atCheckMqtt
  | atCheckDimse
  | atPublishStatus
  | atHeartbeat
  | atSleep
deriving DecidableEq

/-- `MQTTHealthChecker.__init__` configuration (topic prefix fixed to the
default). -/
structure CheckerCfg where
  qos : Nat := 1
  retained : Bool := true
  check_interval : Nat := 30

/-- Behaviour of the external world during one cycle of `_run_checks`. -/
structure CycleEnv where
  /-- current wall-clock time (`time.time()`), for the status timestamps -/
  now : Nat := 0
  /-- `mqtt_client.is_connected()` as seen by `_check_mqtt` -/
  connAtCheck : Bool := true
  /-- `result.rc` of `_check_mqtt`'s trial publish (0 = `MQTT_ERR_SUCCESS`) -/
  testPublishRc : Nat := 0
  /-- `none`: no DIMSE server configured; `some b`: server present with
  socket active iff `b` -/
  dimseServer : Option Bool := some true
  /-- an exception inside `_check_mqtt`'s own `try` (caught there) -/
  checkMqttRaises : Bool := false
  /-- an exception inside `_check_dimse`'s own `try` (caught there) -/
  checkDimseRaises : Bool := false
  /-- `is_connected()` as seen by `_publish_status` -/
  connAtStatus : Bool := true
  /-- an exception inside `_publish_status`'s own `try` (caught there) -/
  statusRaises : Bool := false
  /-- `is_connected()` as seen by `_publish_heartbeat` -/
  connAtHeartbeat : Bool := true
  /-- an exception inside `_publish_heartbeat`'s own `try` (caught there) -/
  heartbeatRaises : Bool := false
  /-- an exception escaping to the loop boundary, and where -/
  outerRaise : Option RaisePoint := none

/-- State owned by the checker thread: the `HealthStatus` instance, the
local `heartbeat_count` of `_run_checks`, and the `running` flag. -/
structure CheckerState where
  health : HealthStatus
  heartbeat_count : Nat
  running : Bool

/-- `MQTTHealthChecker._check_mqtt`. -/
def check_mqtt (cfg : CheckerCfg) (env : CycleEnv) (h : HealthStatus) :
    HealthStatus × List Action :=
  if env.checkMqttRaises then
    (h.update_mqtt_status "error" env.now, [Action.logError "Error checking MQTT status"])
  else
    let inner : HealthStatus × List Action :=
      if env.connAtCheck then
        if env.testPublishRc = 0 then
          (h.update_mqtt_status "healthy" env.now,
            [Action.publish HEALTH_TOPIC_TEST Payload.testMsg 0 false])
        else
          (h.update_mqtt_status "degraded" env.now,
            [Action.publish HEALTH_TOPIC_TEST Payload.testMsg 0 false,
             Action.logWarning "MQTT publish failed"])
      else
        (h.update_mqtt_status "error" env.now,
          [Action.logWarning "MQTT client is not connected"])
    (inner.1, inner.2 ++
      [Action.publish HEALTH_TOPIC_MQTT (Payload.mqttReport inner.1.mqtt_status)
        cfg.qos cfg.retained])

/-- `MQTTHealthChecker._check_dimse`. -/
def check_dimse (cfg : CheckerCfg) (env : CycleEnv) (h : HealthStatus) :
    HealthStatus × List Action :=
  if env.checkDimseRaises then
    (h.update_dimse_status "error" env.now, [Action.logError "Error checking DIMSE status"])
  else
    let inner : HealthStatus × List Action :=
      match env.dimseServer with
      | some true => (h.update_dimse_status "healthy" env.now, [])
      | some false =>
        (h.update_dimse_status "error" env.now,
          [Action.logWarning "DIMSE server socket is not active"])
      | none => (h.update_dimse_status "unknown" env.now, [])
    (inner.1, inner.2 ++
      [Action.publish HEALTH_TOPIC_DIMSE (Payload.dimseReport inner.1.dimse_status)
        cfg.qos cfg.retained])

/-- `MQTTHealthChecker._publish_status`: returns without publishing when
the client is not connected; its own exceptions are caught inside. -/
def publish_status (cfg : CheckerCfg) (env : CycleEnv) (h : HealthStatus) : List Action :=
  if env.statusRaises then
    [Action.logError "Error publishing health status"]
  else if env.connAtStatus then
    [Action.publish HEALTH_TOPIC_STATUS
      (Payload.statusReport h.overall_status h.mqtt_status h.dimse_status)
      cfg.qos cfg.retained]
  else
    [Action.logWarning "Cannot publish health status: MQTT client not connected"]

/-- `MQTTHealthChecker._publish_heartbeat`: QoS 0, not retained; silently
skipped when not connected; its own exceptions are caught inside. -/
def publish_heartbeat (env : CycleEnv) (count : Nat) : List Action :=
  if env.heartbeatRaises then
    [Action.logError "Error publishing heartbeat"]
  else if env.connAtHeartbeat then
    [Action.publish HEALTH_TOPIC_HEARTBEAT (Payload.heartbeat count) 0 false]
  else
    []

/-- The `except` branch of `_run_checks`: log, force both tracked
components to `error`, republish the status, back off 5 seconds.  (The
updates and `_publish_status` are total here, so the nested defensive
`try` has nothing to catch.) -/
def errorPath (cfg : CheckerCfg) (env : CycleEnv) (h : HealthStatus) :
    HealthStatus × List Action :=
  let h2 := (h.update_mqtt_status "error" env.now).update_dimse_status "error" env.now
  (h2, Action.logError "Error in health check"
        :: (publish_status cfg env h2 ++ [Action.sleep 5]))

/-- One iteration of the `while self.running` loop of `_run_checks`. -/
def run_cycle (cfg : CheckerCfg) (env : CycleEnv) (s : CheckerState) :
    CheckerState × List Action :=
  if env.outerRaise = some RaisePoint.atCheckMqtt then
    let r := errorPath cfg env s.health
    ({ s with health := r.1 }, r.2)
  else
    let c1 := check_mqtt cfg env s.health
    if env.outerRaise = some RaisePoint.atCheckDimse then
      let r := errorPath cfg env c1.1
      ({ s with health := r.1 }, c1.2 ++ r.2)
    else
      let c2 := check_dimse cfg env c1.1
      if env.outerRaise = some RaisePoint.atPublishStatus then
        let r := errorPath cfg env c2.1
        ({ s with health := r.1 }, c1.2 ++ c2.2 ++ r.2)
      else
        let a3 := publish_status cfg env c2.1
        let hb := s.heartbeat_count + 1
        if env.outerRaise = some RaisePoint.atHeartbeat then
          let r := errorPath cfg env c2.1
          ({ s with health := r.1, heartbeat_count := hb }, c1.2 ++ c2.2 ++ a3 ++ r.2)
        else
          let a4 := publish_heartbeat env hb
          if env.outerRaise = some RaisePoint.atSleep then
            let r := errorPath cfg env c2.1
            ({ s with health := r.1, heartbeat_count := hb },
              c1.2 ++ c2.2 ++ a3 ++ a4 ++ r.2)
          else
            ({ s with health := c2.1, heartbeat_count := hb },
              c1.2 ++ c2.2 ++ a3 ++ a4 ++ [Action.sleep cfg.check_interval])

/-- `MQTTHealthChecker._run_checks`, run over a finite schedule of cycle
environments (the loop re-tests `self.running` before every cycle). -/
def run_checks (cfg : CheckerCfg) : List CycleEnv → CheckerState → CheckerState × List Action
  | [], s => (s, [])
  | env :: envs, s =>
    if s.running then
      let c := run_cycle cfg env s
      let rest := run_checks cfg envs c.1
      (rest.1, c.2 ++ rest.2)
    else (s, [])

/-- `run_cycle` never touches the `running` flag. -/
theorem run_cycle_running (cfg : CheckerCfg) (env : CycleEnv) (s : CheckerState) :
    (run_cycle cfg env s).1.running = s.running := by
  unfold run_cycle
  split_ifs <;> rfl

/-- A cycle in which an exception escapes to the loop boundary always
ends in the `except` branch: its trace is the partial cycle followed by
the error-path actions, and its final health state is the error path's. -/
theorem run_cycle_raise_shape (cfg : CheckerCfg) (env : CycleEnv) (s : CheckerState)
    (p : RaisePoint) (hp : env.outerRaise = some p) :
    ∃ pre h0 hb, run_cycle cfg env s
      = ({ s with health := (errorPath cfg env h0).1, heartbeat_count := hb },
         pre ++ (errorPath cfg env h0).2) := by
  cases p with
  | atCheckMqtt =>
    refine ⟨[], s.health, s.heartbeat_count, ?_⟩
    unfold run_cycle
    rw [if_pos hp]
    rfl
  | atCheckDimse =>
    refine ⟨(check_mqtt cfg env s.health).2, (check_mqtt cfg env s.health).1,
      s.heartbeat_count, ?_⟩
    unfold run_cycle
    rw [hp]
    simp
  | atPublishStatus =>
    refine ⟨(check_mqtt cfg env s.health).2
        ++ (check_dimse cfg env (check_mqtt cfg env s.health).1).2,
      (check_dimse cfg env (check_mqtt cfg env s.health).1).1, s.heartbeat_count, ?_⟩
    unfold run_cycle
    rw [hp]
    simp
  | atHeartbeat =>
    refine ⟨(check_mqtt cfg env s.health).2
        ++ (check_dimse cfg env (check_mqtt cfg env s.health).1).2
        ++ publish_status cfg env (check_dimse cfg env (check_mqtt cfg env s.health).1).1,
      (check_dimse cfg env (check_mqtt cfg env s.health).1).1, s.heartbeat_count + 1, ?_⟩
    unfold run_cycle
    rw [hp]
    simp
  | atSleep =>
    refine ⟨(check_mqtt cfg env s.health).2
        ++ (check_dimse cfg env (check_mqtt cfg env s.health).1).2
        ++ publish_status cfg env (check_dimse cfg env (check_mqtt cfg env s.health).1).1
        ++ publish_heartbeat env (s.heartbeat_count + 1),
      (check_dimse cfg env (check_mqtt cfg env s.health).1).1, s.heartbeat_count + 1, ?_⟩
    unfold run_cycle
    rw [hp]
    simp

/-- C3: in every cycle in which an exception reaches the loop boundary,
the exception is caught, both tracked statuses are forced to `error`,
the composite-status publication is attempted, the cycle backs off 5
seconds, the `running` flag is untouched, and the loop proceeds to the
next iteration. -/
theorem health_loop_survives_exceptions (cfg : CheckerCfg) (env : CycleEnv)
    (s : CheckerState) (p : RaisePoint) (hp : env.outerRaise = some p)
    (hr : s.running = true) :
    (run_cycle cfg env s).1.health.mqtt_status = "error"
    ∧ (run_cycle cfg env s).1.health.dimse_status = "error"
    ∧ (∃ pre, (run_cycle cfg env s).2
        = pre ++ Action.logError "Error in health check"
            :: (publish_status cfg env (run_cycle cfg env s).1.health
                ++ [Action.sleep 5]))
    ∧ (run_cycle cfg env s).1.running = true
    ∧ (∀ envs, run_checks cfg (env :: envs) s
        = ((run_checks cfg envs (run_cycle cfg env s).1).1,
           (run_cycle cfg env s).2 ++ (run_checks cfg envs (run_cycle cfg env s).1).2)) := by
  obtain ⟨pre, h0, hb, heq⟩ := run_cycle_raise_shape cfg env s p hp
  refine ⟨?_, ?_, ?_, ?_, ?_⟩
  · rw [heq]
    rfl
  · rw [heq]
    rfl
  · refine ⟨pre, ?_⟩
    rw [heq]
    rfl
  · rw [heq]
    exact hr
  · intro envs
    simp [run_checks, hr]

/-- Witness for C3: a concrete cycle whose `sleep` is interrupted. -/
theorem health_loop_survives_exceptions_witness :
    (run_cycle {} { outerRaise := some RaisePoint.atSleep }
        ⟨{}, 0, true⟩).1.health.mqtt_status = "error"
    ∧ (run_cycle {} { outerRaise := some RaisePoint.atSleep }
        ⟨{}, 0, true⟩).1.health.dimse_status = "error"
    ∧ (∃ pre, (run_cycle {} { outerRaise := some RaisePoint.atSleep } ⟨{}, 0, true⟩).2
        = pre ++ Action.logError "Error in health check"
            :: (publish_status {} { outerRaise := some RaisePoint.atSleep }
                  (run_cycle {} { outerRaise := some RaisePoint.atSleep }
                    ⟨{}, 0, true⟩).1.health
                ++ [Action.sleep 5]))
    ∧ (run_cycle {} { outerRaise := some RaisePoint.atSleep } ⟨{}, 0, true⟩).1.running = true
    ∧ (∀ envs, run_checks {} ({ outerRaise := some RaisePoint.atSleep } :: envs) ⟨{}, 0, true⟩
        = ((run_checks {} envs (run_cycle {} { outerRaise := some RaisePoint.atSleep }
              ⟨{}, 0, true⟩).1).1,
           (run_cycle {} { outerRaise := some RaisePoint.atSleep } ⟨{}, 0, true⟩).2
             ++ (run_checks {} envs (run_cycle {} { outerRaise := some RaisePoint.atSleep }
                  ⟨{}, 0, true⟩).1).2)) :=
  health_loop_survives_exceptions {} { outerRaise := some RaisePoint.atSleep }
    ⟨{}, 0, true⟩ RaisePoint.atSleep rfl rfl

/-! ## Heartbeat properties of the checker loop -/

/-- The count carried by an action, when it is a heartbeat publish. -/
def heartbeatOf : Action → Option Nat
  | Action.publish _ (Payload.heartbeat c) _ _ => some c
  | Action.publish _ (Payload.statusReport _ _ _) _ _ => none
  | Action.publish _ (Payload.mqttReport _) _ _ => none
  | Action.publish _ (Payload.dimseReport _) _ _ => none
  | Action.publish _ Payload.testMsg _ _ => none
  | Action.sleep _ => none
  | Action.logWarning _ => none
  | Action.logError _ => none

/-- The heartbeat counts published in a trace, in order. -/
def heartbeatCounts (tr : List Action) : List Nat :=
  tr.filterMap heartbeatOf

/-- Every heartbeat publish in the trace goes to the heartbeat topic with
QoS 0 and `retain=False`. -/
def heartbeatsWellFormed (tr : List Action) : Prop :=
  ∀ t c q r, Action.publish t (Payload.heartbeat c) q r ∈ tr →
    t = HEALTH_TOPIC_HEARTBEAT ∧ q = 0 ∧ r = false

theorem heartbeatCounts_append (l₁ l₂ : List Action) :
    heartbeatCounts (l₁ ++ l₂) = heartbeatCounts l₁ ++ heartbeatCounts l₂ :=
  List.filterMap_append l₁ l₂ heartbeatOf

theorem heartbeatCounts_check_mqtt (cfg : CheckerCfg) (env : CycleEnv) (h : HealthStatus) :
    heartbeatCounts (check_mqtt cfg env h).2 = [] := by
  unfold check_mqtt
  split_ifs <;> simp [heartbeatCounts, heartbeatOf]

theorem heartbeatCounts_check_dimse (cfg : CheckerCfg) (env : CycleEnv) (h : HealthStatus) :
    heartbeatCounts (check_dimse cfg env h).2 = [] := by
  unfold check_dimse
  split_ifs
  · simp [heartbeatCounts, heartbeatOf]
  · rcases env.dimseServer with _ | b
    · simp [heartbeatCounts, heartbeatOf]
    · cases b <;> simp [heartbeatCounts, heartbeatOf]

theorem heartbeatCounts_publish_status (cfg : CheckerCfg) (env : CycleEnv)
    (h : HealthStatus) : heartbeatCounts (publish_status cfg env h) = [] := by
  unfold publish_status
  split_ifs <;> simp [heartbeatCounts, heartbeatOf]

theorem heartbeatCounts_errorPath (cfg : CheckerCfg) (env : CycleEnv) (h : HealthStatus) :
    heartbeatCounts (errorPath cfg env h).2 = [] := by
  unfold errorPath
  simp [heartbeatCounts, heartbeatOf, heartbeatCounts_publish_status,
    List.filterMap_append]
  have := heartbeatCounts_publish_status cfg env
    ((h.update_mqtt_status "error" env.now).update_dimse_status "error" env.now)
  simpa [heartbeatCounts] using this

theorem heartbeatCounts_sleep (n : Nat) : heartbeatCounts [Action.sleep n] = [] := rfl

theorem heartbeatCounts_publish_heartbeat (env : CycleEnv) (n : Nat) :
    heartbeatCounts (publish_heartbeat env n) = []
    ∨ heartbeatCounts (publish_heartbeat env n) = [n] := by
  unfold publish_heartbeat
  split_ifs <;> simp [heartbeatCounts, heartbeatOf]

/-- Per-cycle heartbeat accounting: a cycle publishes either no heartbeat
or exactly the incremented counter, and the counter grows by at most 1. -/
theorem run_cycle_heartbeats (cfg : CheckerCfg) (env : CycleEnv) (s : CheckerState) :
    (heartbeatCounts (run_cycle cfg env s).2 = []
      ∨ (heartbeatCounts (run_cycle cfg env s).2 = [s.heartbeat_count + 1]
          ∧ (run_cycle cfg env s).1.heartbeat_count = s.heartbeat_count + 1))
    ∧ s.heartbeat_count ≤ (run_cycle cfg env s).1.heartbeat_count
    ∧ (run_cycle cfg env s).1.heartbeat_count ≤ s.heartbeat_count + 1 := by
  unfold run_cycle
  split_ifs <;>
    simp [heartbeatCounts_append, heartbeatCounts_check_mqtt,
      heartbeatCounts_check_dimse, heartbeatCounts_publish_status,
      heartbeatCounts_errorPath] <;>
    rcases heartbeatCounts_publish_heartbeat env (s.heartbeat_count + 1) with hh | hh <;>
    simp [hh, heartbeatCounts_sleep]

/-- Heartbeat accounting over a whole run: the published counts are
pairwise increasing and bracketed between the initial and the final
counter value. -/
theorem run_checks_heartbeats (cfg : CheckerCfg) :
    ∀ (envs : List CycleEnv) (s : CheckerState),
      List.Chain' (· < ·) (heartbeatCounts (run_checks cfg envs s).2)
      ∧ (∀ n ∈ heartbeatCounts (run_checks cfg envs s).2,
          s.heartbeat_count < n ∧ n ≤ (run_checks cfg envs s).1.heartbeat_count)
      ∧ s.heartbeat_count ≤ (run_checks cfg envs s).1.heartbeat_count
  | [], s => by simp [run_checks, heartbeatCounts]
  | env :: envs, s => by
    by_cases hr : s.running
    · obtain ⟨hd, hmono, hle1⟩ := run_cycle_heartbeats cfg env s
      obtain ⟨ihchain, ihmem, ihmono⟩ :=
        run_checks_heartbeats cfg envs (run_cycle cfg env s).1
      have hunf : run_checks cfg (env :: envs) s
          = ((run_checks cfg envs (run_cycle cfg env s).1).1,
             (run_cycle cfg env s).2 ++ (run_checks cfg envs (run_cycle cfg env s).1).2) := by
        simp [run_checks, hr]
      rw [hunf]
      simp only [heartbeatCounts_append]
      rcases hd with hd | ⟨hd, hinc⟩
      · rw [hd]
        refine ⟨by simpa using ihchain, ?_, le_trans hmono ihmono⟩
        intro n hn
        simp only [List.nil_append] at hn
        exact ⟨lt_of_le_of_lt hmono (ihmem n hn).1, (ihmem n hn).2⟩
      · rw [hd]
        refine ⟨?_, ?_, le_trans hmono ihmono⟩
        · simp only [List.singleton_append]
          rw [List.chain'_cons']
          refine ⟨?_, ihchain⟩
          intro y hy
          have hym := ihmem y (List.mem_of_mem_head? hy)
          omega
        · intro n hn
          simp only [List.singleton_append, List.mem_cons] at hn
          rcases hn with rfl | hn
          · exact ⟨Nat.lt_succ_self _, by rw [← hinc]; exact ihmono⟩
          · have hnm := ihmem n hn
            omega
    · have hfalse : s.running = false := by simpa using hr
      simp [run_checks, hfalse, heartbeatCounts]

theorem heartbeatsWellFormed_append {l₁ l₂ : List Action}
    (h₁ : heartbeatsWellFormed l₁) (h₂ : heartbeatsWellFormed l₂) :
    heartbeatsWellFormed (l₁ ++ l₂) := by
  intro t c q r hm
  rcases List.mem_append.1 hm with h | h
  exacts [h₁ t c q r h, h₂ t c q r h]

theorem heartbeatsWellFormed_check_mqtt (cfg : CheckerCfg) (env : CycleEnv)
    (h : HealthStatus) : heartbeatsWellFormed (check_mqtt cfg env h).2 := by
  intro t c q r hm
  unfold check_mqtt at hm
  split_ifs at hm <;> simp_all

theorem heartbeatsWellFormed_check_dimse (cfg : CheckerCfg) (env : CycleEnv)
    (h : HealthStatus) : heartbeatsWellFormed (check_dimse cfg env h).2 := by
  intro t c q r hm
  unfold check_dimse at hm
  split_ifs at hm
  · simp_all
  · cases hds : env.dimseServer with
    | none =>
      rw [hds] at hm
      simp_all
    | some b =>
      rw [hds] at hm
      cases b <;> simp_all

theorem heartbeatsWellFormed_publish_status (cfg : CheckerCfg) (env : CycleEnv)
    (h : HealthStatus) : heartbeatsWellFormed (publish_status cfg env h) := by
  intro t c q r hm
  unfold publish_status at hm
  split_ifs at hm <;> simp_all

theorem heartbeatsWellFormed_errorPath (cfg : CheckerCfg) (env : CycleEnv)
    (h : HealthStatus) : heartbeatsWellFormed (errorPath cfg env h).2 := by
  intro t c q r hm
  unfold errorPath at hm
  simp only [List.mem_cons, List.mem_append, List.mem_singleton] at hm
  rcases hm with hm | hm | hm
  · simp_all
  · exact heartbeatsWellFormed_publish_status cfg env _ t c q r hm
  · simp_all

theorem heartbeatsWellFormed_publish_heartbeat (env : CycleEnv) (n : Nat) :
    heartbeatsWellFormed (publish_heartbeat env n) := by
  intro t c q r hm
  unfold publish_heartbeat at hm
  split_ifs at hm <;> simp_all

theorem heartbeatsWellFormed_run_cycle (cfg : CheckerCfg) (env : CycleEnv)
    (s : CheckerState) : heartbeatsWellFormed (run_cycle cfg env s).2 := by
  unfold run_cycle
  split_ifs <;>
    first
    | exact heartbeatsWellFormed_errorPath cfg env _
    | (repeat' apply heartbeatsWellFormed_append) <;>
      first
      | exact heartbeatsWellFormed_check_mqtt cfg env _
      | exact heartbeatsWellFormed_check_dimse cfg env _
      | exact heartbeatsWellFormed_publish_status cfg env _
      | exact heartbeatsWellFormed_publish_heartbeat env _
      | exact heartbeatsWellFormed_errorPath cfg env _
      | (intro t c q r hm; simp_all)

theorem heartbeatsWellFormed_run_checks (cfg : CheckerCfg) :
    ∀ (envs : List CycleEnv) (s : CheckerState),
      heartbeatsWellFormed (run_checks cfg envs s).2
  | [], _ => by intro t c q r hm; simp [run_checks] at hm
  | env :: envs, s => by
    by_cases hr : s.running
    · have hunf : run_checks cfg (env :: envs) s
          = ((run_checks cfg envs (run_cycle cfg env s).1).1,
             (run_cycle cfg env s).2 ++ (run_checks cfg envs (run_cycle cfg env s).1).2) := by
        simp [run_checks, hr]
      rw [hunf]
      exact heartbeatsWellFormed_append (heartbeatsWellFormed_run_cycle cfg env s)
        (heartbeatsWellFormed_run_checks cfg envs _)
    · have hfalse : s.running = false := by simpa using hr
      intro t c q r hm
      simp [run_checks, hfalse] at hm

/-- A cycle environment in which no exception reaches the loop boundary
and the heartbeat publish goes through. -/
def CycleEnv.clean (env : CycleEnv) : Prop :=
  env.outerRaise = none ∧ env.heartbeatRaises = false ∧ env.connAtHeartbeat = true

/-- A clean cycle publishes exactly one heartbeat, carrying the counter
incremented by one. -/
theorem run_cycle_clean (cfg : CheckerCfg) (env : CycleEnv) (s : CheckerState)
    (hc : env.clean) :
    heartbeatCounts (run_cycle cfg env s).2 = [s.heartbeat_count + 1]
    ∧ (run_cycle cfg env s).1.heartbeat_count = s.heartbeat_count + 1 := by
  obtain ⟨h1, h2, h3⟩ := hc
  have hbok : heartbeatCounts (publish_heartbeat env (s.heartbeat_count + 1))
      = [s.heartbeat_count + 1] := by
    unfold publish_heartbeat
    rw [h2, h3]
    simp [heartbeatCounts, heartbeatOf]
  unfold run_cycle
  simp [h1, heartbeatCounts_append, heartbeatCounts_check_mqtt, heartbeatCounts_check_dimse,
    heartbeatCounts_publish_status, heartbeatCounts_sleep, hbok]

/-- Over a schedule of clean cycles the published heartbeat counts are
exactly the consecutive integers from the initial counter plus one. -/
theorem run_checks_clean (cfg : CheckerCfg) :
    ∀ (envs : List CycleEnv) (s : CheckerState),
      (∀ e ∈ envs, e.clean) → s.running = true →
      heartbeatCounts (run_checks cfg envs s).2
        = List.range' (s.heartbeat_count + 1) envs.length
  | [], s => by
    intro _ _
    simp [run_checks, heartbeatCounts]
  | env :: envs, s => by
    intro hcl hr
    have hc := run_cycle_clean cfg env s (hcl env (by simp))
    have hrun : (run_cycle cfg env s).1.running = true := by
      rw [run_cycle_running]; exact hr
    have ih := run_checks_clean cfg envs (run_cycle cfg env s).1
      (fun e he => hcl e (by simp [he])) hrun
    have hunf : run_checks cfg (env :: envs) s
        = ((run_checks cfg envs (run_cycle cfg env s).1).1,
           (run_cycle cfg env s).2 ++ (run_checks cfg envs (run_cycle cfg env s).1).2) := by
      simp [run_checks, hr]
    rw [hunf]
    simp only [heartbeatCounts_append, hc.1, ih, hc.2, List.length_cons]
    rw [List.range'_succ]
    rfl

/-- C9: across loop iterations, published heartbeat counts are strictly
increasing; each heartbeat goes to the heartbeat topic with QoS 0 and not
retained; and over exception-free cycles the counts are exactly
1, 2, ..., n (counter starts at 1, one increment per successful cycle). -/
theorem heartbeat_counts_strictly_increasing (cfg : CheckerCfg) (envs : List CycleEnv)
    (s : CheckerState) (h0 : s.heartbeat_count = 0) (hr : s.running = true) :
    List.Chain' (· < ·) (heartbeatCounts (run_checks cfg envs s).2)
    ∧ heartbeatsWellFormed (run_checks cfg envs s).2
    ∧ ((∀ e ∈ envs, e.clean) →
        heartbeatCounts (run_checks cfg envs s).2 = List.range' 1 envs.length) := by
  refine ⟨(run_checks_heartbeats cfg envs s).1,
    heartbeatsWellFormed_run_checks cfg envs s, fun hcl => ?_⟩
  have hres := run_checks_clean cfg envs s hcl hr
  rwa [h0] at hres

/-- Witness for C9: two default (clean) cycles from a fresh state. -/
theorem heartbeat_counts_strictly_increasing_witness :
    ((⟨{}, 0, true⟩ : CheckerState).heartbeat_count = 0)
    ∧ (List.Chain' (· < ·) (heartbeatCounts (run_checks {} [{}, {}] ⟨{}, 0, true⟩).2)
       ∧ heartbeatsWellFormed (run_checks {} [{}, {}] ⟨{}, 0, true⟩).2
       ∧ ((∀ e ∈ ([{}, {}] : List CycleEnv), e.clean) →
           heartbeatCounts (run_checks {} [{}, {}] ⟨{}, 0, true⟩).2
             = List.range' 1 ([{}, {}] : List CycleEnv).length)) :=
  ⟨rfl, heartbeat_counts_strictly_increasing {} [{}, {}] ⟨{}, 0, true⟩ rfl rfl⟩

/-! ## Status publication while disconnected -/

theorem publish_topics_check_mqtt (cfg : CheckerCfg) (env : CycleEnv) (h : HealthStatus) :
    ∀ t pl q r, Action.publish t pl q r ∈ (check_mqtt cfg env h).2 →
      t = HEALTH_TOPIC_TEST ∨ t = HEALTH_TOPIC_MQTT := by
  intro t pl q r hm
  unfold check_mqtt at hm
  split_ifs at hm <;> simp_all <;> tauto

theorem publish_topics_check_dimse (cfg : CheckerCfg) (env : CycleEnv) (h : HealthStatus) :
    ∀ t pl q r, Action.publish t pl q r ∈ (check_dimse cfg env h).2 →
      t = HEALTH_TOPIC_DIMSE := by
  intro t pl q r hm
  unfold check_dimse at hm
  split_ifs at hm
  · simp_all
  · cases hds : env.dimseServer with
    | none =>
      rw [hds] at hm
      simp_all
    | some b =>
      rw [hds] at hm
      cases b <;> simp_all

/-- `_publish_status` makes no publish call at all when the client is not
connected. -/
theorem publish_status_disconnected (cfg : CheckerCfg) (env : CycleEnv) (h : HealthStatus)
    (hconn : env.connAtStatus = false) :
    ∀ t pl q r, Action.publish t pl q r ∉ publish_status cfg env h := by
  intro t pl q r hm
  unfold publish_status at hm
  split_ifs at hm <;> simp_all

theorem publish_topics_publish_heartbeat (env : CycleEnv) (n : Nat) :
    ∀ t pl q r, Action.publish t pl q r ∈ publish_heartbeat env n →
      t = HEALTH_TOPIC_HEARTBEAT := by
  intro t pl q r hm
  unfold publish_heartbeat at hm
  split_ifs at hm <;> simp_all

theorem errorPath_no_publish_disconnected (cfg : CheckerCfg) (env : CycleEnv)
    (h : HealthStatus) (hconn : env.connAtStatus = false) :
    ∀ t pl q r, Action.publish t pl q r ∉ (errorPath cfg env h).2 := by
  intro t pl q r hm
  unfold errorPath at hm
  simp only [List.mem_cons, List.mem_append, List.mem_singleton] at hm
  rcases hm with hm | hm | hm
  · simp_all
  · exact publish_status_disconnected cfg env _ hconn t pl q r hm
  · simp_all

/-- When the broker connection is down at status-publication time, no
cycle — error path or not — ever publishes to the status topic. -/
theorem run_cycle_no_status_publish (cfg : CheckerCfg) (env : CycleEnv) (s : CheckerState)
    (hconn : env.connAtStatus = false) :
    ∀ t pl q r, Action.publish t pl q r ∈ (run_cycle cfg env s).2 →
      t ≠ HEALTH_TOPIC_STATUS := by
  have htest : HEALTH_TOPIC_TEST ≠ HEALTH_TOPIC_STATUS := by decide
  have hmq : HEALTH_TOPIC_MQTT ≠ HEALTH_TOPIC_STATUS := by decide
  have hdi : HEALTH_TOPIC_DIMSE ≠ HEALTH_TOPIC_STATUS := by decide
  have hhb : HEALTH_TOPIC_HEARTBEAT ≠ HEALTH_TOPIC_STATUS := by decide
  intro t pl q r hm
  unfold run_cycle at hm
  split_ifs at hm <;> simp only [List.mem_append] at hm
  · exact absurd hm (errorPath_no_publish_disconnected cfg env _ hconn t pl q r)
  · rcases hm with hm | hm
    · rcases publish_topics_check_mqtt cfg env _ t pl q r hm with rfl | rfl
      exacts [htest, hmq]
    · exact absurd hm (errorPath_no_publish_disconnected cfg env _ hconn t pl q r)
  · rcases hm with (hm | hm) | hm
    · rcases publish_topics_check_mqtt cfg env _ t pl q r hm with rfl | rfl
      exacts [htest, hmq]
    · rw [publish_topics_check_dimse cfg env _ t pl q r hm]
      exact hdi
    · exact absurd hm (errorPath_no_publish_disconnected cfg env _ hconn t pl q r)
  · rcases hm with ((hm | hm) | hm) | hm
    · rcases publish_topics_check_mqtt cfg env _ t pl q r hm with rfl | rfl
      exacts [htest, hmq]
    · rw [publish_topics_check_dimse cfg env _ t pl q r hm]
      exact hdi
    · exact absurd hm (publish_status_disconnected cfg env _ hconn t pl q r)
    · exact absurd hm (errorPath_no_publish_disconnected cfg env _ hconn t pl q r)
  · rcases hm with (((hm | hm) | hm) | hm) | hm
    · rcases publish_topics_check_mqtt cfg env _ t pl q r hm with rfl | rfl
      exacts [htest, hmq]
    · rw [publish_topics_check_dimse cfg env _ t pl q r hm]
      exact hdi
    · exact absurd hm (publish_status_disconnected cfg env _ hconn t pl q r)
    · rw [publish_topics_publish_heartbeat env _ t pl q r hm]
      exact hhb
    · exact absurd hm (errorPath_no_publish_disconnected cfg env _ hconn t pl q r)
  · rcases hm with (((hm | hm) | hm) | hm) | hm
    · rcases publish_topics_check_mqtt cfg env _ t pl q r hm with rfl | rfl
      exacts [htest, hmq]
    · rw [publish_topics_check_dimse cfg env _ t pl q r hm]
      exact hdi
    · exact absurd hm (publish_status_disconnected cfg env _ hconn t pl q r)
    · rw [publish_topics_publish_heartbeat env _ t pl q r hm]
      exact hhb
    · simp_all

/-- C10: `_publish_status` called while the client reports not connected
returns with only a warning log and no publish call; consequently an
error-recovery cycle caused by a lost bus connection never publishes the
forced-`error` composite status to the status topic. -/
theorem status_publish_skipped_when_disconnected (cfg : CheckerCfg) (env : CycleEnv)
    (s : CheckerState) (h : HealthStatus)
    (hconn : env.connAtStatus = false) :
    (env.statusRaises = false →
      publish_status cfg env h
        = [Action.logWarning "Cannot publish health status: MQTT client not connected"])
    ∧ (∀ p, env.outerRaise = some p →
        ∀ t pl q r, Action.publish t pl q r ∈ (run_cycle cfg env s).2 →
          t ≠ HEALTH_TOPIC_STATUS) := by
  constructor
  · intro hsr
    unfold publish_status
    rw [hsr, hconn]
    simp
  · intro p hp t pl q r hm
    exact run_cycle_no_status_publish cfg env s hconn t pl q r hm

/-- Witness for C10: a concrete disconnected error-recovery cycle. -/
theorem status_publish_skipped_when_disconnected_witness :
    (({ connAtStatus := false, outerRaise := some RaisePoint.atSleep } :
        CycleEnv).statusRaises = false →
      publish_status {} { connAtStatus := false, outerRaise := some RaisePoint.atSleep } {}
        = [Action.logWarning "Cannot publish health status: MQTT client not connected"])
    ∧ (∀ p, ({ connAtStatus := false, outerRaise := some RaisePoint.atSleep } :
          CycleEnv).outerRaise = some p →
        ∀ t pl q r, Action.publish t pl q r
            ∈ (run_cycle {} { connAtStatus := false, outerRaise := some RaisePoint.atSleep }
                ⟨{}, 0, true⟩).2 →
          t ≠ HEALTH_TOPIC_STATUS) :=
  status_publish_skipped_when_disconnected {}
    { connAtStatus := false, outerRaise := some RaisePoint.atSleep } ⟨{}, 0, true⟩ {} rfl

/-! ## Subscription manager (spec §4.4)

Modelled from the spec: `register_subscriber`, `unregister_subscriber`
and the module-level registries (`subscriber_clients`, `command_queues`,
`subscriber_processes`) live in `ups_event_mqtt_broker_adapter.py`,
absent from the sources. -/

inductive CmdAction where
  | subscribe
  | unsubscribe
deriving DecidableEq

/-- Modelled from the spec (§3, `Command`): an action plus the topic
filter it applies to. -/
structure Command where
  action : CmdAction
  topic : String
deriving DecidableEq

/-- Modelled from the spec (§4.4/§9): the subscriber registries — active
titles, one FIFO command channel per title, and the recorded workers
(identified here by the title they own). -/
structure ManagerState where
  subscriber_clients : List String
  command_queues : List (String × List Command)
  subscriber_processes : List String
deriving DecidableEq

/-- The default wildcard subscription filter. -/
def defaultFilter : String := "/workitems/#"

/-- Modelled from the spec (§4.2): `toSubscriptionFilter` appends the
wildcard suffix `/#`; the default filter is `/workitems/#`. -/
def toSubscriptionFilter (topic : Option String) : String :=
  match topic with
  | some t => t ++ "/#"
  | none => defaultFilter

/-- Append a command to the channel of the given title. -/
def enqueueCommand (st : ManagerState) (title : String) (cmd : Command) : ManagerState :=
  { st with command_queues :=
      st.command_queues.map (fun p => if p.1 = title then (p.1, p.2 ++ [cmd]) else p) }

/-- The command channel currently recorded for a title. -/
def queueOf (st : ManagerState) (title : String) : List Command :=
  ((st.command_queues.find? (fun p => p.1 = title)).map Prod.snd).getD []

/-- Modelled from the spec (§4.4): `register_subscriber(title, topic?)` —
when the title is not yet active, create a channel, start and record a
worker; in all cases enqueue one `Subscribe` command with the
subscription filter. -/
def register_subscriber (st : ManagerState) (title : String) (topic : Option String) :
    ManagerState :=
  let st1 :=
    if title ∈ st.subscriber_clients then st
    else
      { subscriber_clients := st.subscriber_clients ++ [title],
        command_queues := st.command_queues ++ [(title, [])],
        subscriber_processes := st.subscriber_processes ++ [title] }
  enqueueCommand st1 title ⟨CmdAction.subscribe, toSubscriptionFilter topic⟩

/-- Modelled from the spec (§4.4): `unregister_subscriber(title, topic?)`
— enqueue an `Unsubscribe` for an active title; otherwise report
"subscriber not found" (returned as a log line) and do nothing. -/
def unregister_subscriber (st : ManagerState) (title : String) (topic : Option String) :
    ManagerState × List String :=
  if title ∈ st.subscriber_clients then
    (enqueueCommand st title ⟨CmdAction.unsubscribe, topic.getD defaultFilter⟩, [])
  else
    (st, ["Subscriber not found: " ++ title])

/-- Well-formedness of the registries: the channel keys are exactly the
active titles (each title owns one channel), without duplicates. -/
def ManagerState.WF (st : ManagerState) : Prop :=
  st.command_queues.map Prod.fst = st.subscriber_clients ∧ st.subscriber_clients.Nodup

theorem find?_map_enqueue (qs : List (String × List Command)) (title : String)
    (cmd : Command) :
    (qs.map (fun p => if p.1 = title then (p.1, p.2 ++ [cmd]) else p)).find?
        (fun p => p.1 = title)
      = (qs.find? (fun p => p.1 = title)).map (fun p => (p.1, p.2 ++ [cmd])) := by
  induction qs with
  | nil => rfl
  | cons q qs ih =>
    by_cases hq : q.1 = title
    · simp [List.find?_cons, hq]
    · simp [List.find?_cons, hq, ih]

theorem enqueueCommand_keys (st : ManagerState) (title : String) (cmd : Command) :
    (enqueueCommand st title cmd).command_queues.map Prod.fst
      = st.command_queues.map Prod.fst := by
  unfold enqueueCommand
  simp only [List.map_map]
  apply List.map_congr_left
  intro p _
  by_cases hp : p.1 = title <;> simp [hp]

theorem queueOf_enqueue (st : ManagerState) (title : String) (cmd : Command)
    (hmem : title ∈ st.command_queues.map Prod.fst) :
    queueOf (enqueueCommand st title cmd) title = queueOf st title ++ [cmd] := by
  unfold queueOf enqueueCommand
  rw [find?_map_enqueue]
  have hsome : (st.command_queues.find? (fun p => p.1 = title)).isSome := by
    rw [List.find?_isSome]
    obtain ⟨p, hp, hkey⟩ := List.mem_map.1 hmem
    exact ⟨p, hp, by simp [hkey]⟩
  obtain ⟨p, hp⟩ := Option.isSome_iff_exists.1 hsome
  simp [hp]

theorem find?_append_none {α : Type} (l₁ l₂ : List α) (p : α → Bool)
    (h : l₁.find? p = none) : (l₁ ++ l₂).find? p = l₂.find? p := by
  induction l₁ with
  | nil => rfl
  | cons a l ih =>
    rw [List.find?_cons] at h
    by_cases ha : p a
    · simp [ha] at h
    · simp only [ha] at h
      simp [List.find?_cons, ha, ih h]

/-- C5: `register_subscriber(title, topic?)` spawns and records exactly
one worker and one channel when the title is new, reuses them when the
title is active, and in all cases enqueues exactly one `Subscribe`
command whose filter is the topic with `/#` appended (default
`/workitems/#`). -/
theorem register_subscriber_spec (st : ManagerState) (title : String)
    (topic : Option String) (hwf : st.WF) :
    (title ∉ st.subscriber_clients →
      (register_subscriber st title topic).subscriber_clients
          = st.subscriber_clients ++ [title]
      ∧ (register_subscriber st title topic).subscriber_processes
          = st.subscriber_processes ++ [title]
      ∧ (register_subscriber st title topic).command_queues.map Prod.fst
          = st.command_queues.map Prod.fst ++ [title]
      ∧ queueOf (register_subscriber st title topic) title
          = [⟨CmdAction.subscribe,
              match topic with
              | some t => t ++ "/#"
              | none => "/workitems/#"⟩])
    ∧ (title ∈ st.subscriber_clients →
      (register_subscriber st title topic).subscriber_clients = st.subscriber_clients
      ∧ (register_subscriber st title topic).subscriber_processes
          = st.subscriber_processes
      ∧ (register_subscriber st title topic).command_queues.map Prod.fst
          = st.command_queues.map Prod.fst
      ∧ queueOf (register_subscriber st title topic) title
          = queueOf st title
            ++ [⟨CmdAction.subscribe,
                match topic with
                | some t => t ++ "/#"
                | none => "/workitems/#"⟩]) := by
  have hfil : toSubscriptionFilter topic
      = (match topic with
         | some t => t ++ "/#"
         | none => "/workitems/#") := by
    cases topic <;> rfl
  constructor
  · intro hnot
    have hkeys : title ∉ st.command_queues.map Prod.fst := by
      rw [hwf.1]; exact hnot
    unfold register_subscriber
    rw [if_neg hnot]
    refine ⟨rfl, rfl, ?_, ?_⟩
    · rw [enqueueCommand_keys]
      simp
    · rw [queueOf_enqueue _ _ _ (by simp), hfil]
      have hq : queueOf
          ({ subscriber_clients := st.subscriber_clients ++ [title],
             command_queues := st.command_queues ++ [(title, [])],
             subscriber_processes := st.subscriber_processes ++ [title] } : ManagerState)
          title = [] := by
        unfold queueOf
        rw [find?_append_none _ _ _ ?hnone]
        · simp
        case hnone =>
          rw [List.find?_eq_none]
          intro p hp
          simp only [decide_eq_true_eq]
          intro hkey
          exact hkeys (List.mem_map.2 ⟨p, hp, hkey⟩)
      rw [hq]
      simp
  · intro hmem
    unfold register_subscriber
    rw [if_pos hmem]
    refine ⟨rfl, rfl, enqueueCommand_keys st title _, ?_⟩
    rw [queueOf_enqueue _ _ _ (by rw [hwf.1]; exact hmem), hfil]

/-- Witness for C5 at the spec's example input. -/
theorem register_subscriber_spec_witness :
    ("TEST_AE" ∉ (⟨[], [], []⟩ : ManagerState).subscriber_clients
      → (register_subscriber ⟨[], [], []⟩ "TEST_AE"
            (some "/workitems/123")).subscriber_clients
          = (⟨[], [], []⟩ : ManagerState).subscriber_clients ++ ["TEST_AE"]
      ∧ (register_subscriber ⟨[], [], []⟩ "TEST_AE"
            (some "/workitems/123")).subscriber_processes
          = (⟨[], [], []⟩ : ManagerState).subscriber_processes ++ ["TEST_AE"]
      ∧ (register_subscriber ⟨[], [], []⟩ "TEST_AE"
            (some "/workitems/123")).command_queues.map Prod.fst
          = (⟨[], [], []⟩ : ManagerState).command_queues.map Prod.fst ++ ["TEST_AE"]
      ∧ queueOf (register_subscriber ⟨[], [], []⟩ "TEST_AE" (some "/workitems/123"))
            "TEST_AE"
          = [⟨CmdAction.subscribe, "/workitems/123" ++ "/#"⟩])
    ∧ ("TEST_AE" ∈ (⟨[], [], []⟩ : ManagerState).subscriber_clients
      → (register_subscriber ⟨[], [], []⟩ "TEST_AE"
            (some "/workitems/123")).subscriber_clients
          = (⟨[], [], []⟩ : ManagerState).subscriber_clients
      ∧ (register_subscriber ⟨[], [], []⟩ "TEST_AE"
            (some "/workitems/123")).subscriber_processes
          = (⟨[], [], []⟩ : ManagerState).subscriber_processes
      ∧ (register_subscriber ⟨[], [], []⟩ "TEST_AE"
            (some "/workitems/123")).command_queues.map Prod.fst
          = (⟨[], [], []⟩ : ManagerState).command_queues.map Prod.fst
      ∧ queueOf (register_subscriber ⟨[], [], []⟩ "TEST_AE" (some "/workitems/123"))
            "TEST_AE"
          = queueOf ⟨[], [], []⟩ "TEST_AE"
            ++ [⟨CmdAction.subscribe, "/workitems/123" ++ "/#"⟩]) :=
  register_subscriber_spec ⟨[], [], []⟩ "TEST_AE" (some "/workitems/123")
    ⟨rfl, List.nodup_nil⟩

/-- C6: unregistering a title with no active subscription reports
"subscriber not found", leaves the registries untouched (no command
enqueued, no worker created), and returns normally. -/
theorem unregister_subscriber_not_found (st : ManagerState) (title : String)
    (topic : Option String) (hmem : title ∉ st.subscriber_clients) :
    unregister_subscriber st title topic
      = (st, ["Subscriber not found: " ++ title]) := by
  unfold unregister_subscriber
  rw [if_neg hmem]

/-- Witness for C6 at the test's concrete input. -/
theorem unregister_subscriber_not_found_witness :
    unregister_subscriber ⟨[], [], []⟩ "NONEXISTENT_AE" none
      = (⟨[], [], []⟩, ["Subscriber not found: " ++ "NONEXISTENT_AE"]) :=
  unregister_subscriber_not_found ⟨[], [], []⟩ "NONEXISTENT_AE" none (by simp)

/-! ## Endpoint registry (spec §4.1)

Modelled from the spec: `load_ae_config` lives in
`ups_event_mqtt_broker_adapter.py`, absent from the sources. -/

/-- One endpoint record `{AETitle, IPAddr, Port}`. -/
structure AERecord where
  aeTitle : String
  ipAddr : String
  port : Nat
deriving DecidableEq

/-- Modelled from the spec (§4.1): `load_ae_config` reads the ordered
record list and builds the title → `(host, port)` dictionary by
successive dict assignment, so on duplicate titles the last occurrence
wins (no error). -/
def load_ae_config (records : List AERecord) : List (String × (String × Nat)) :=
  records.foldl (fun acc r => dictInsert acc r.aeTitle (r.ipAddr, r.port)) []

/-- Dictionary lookup on the loaded table. -/
def lookupAE (m : List (String × (String × Nat))) (title : String) :
    Option (String × Nat) :=
  (m.find? (fun p => p.1 = title)).map Prod.snd

theorem lookupAE_dictInsert (m : List (String × (String × Nat))) (k : String)
    (v : String × Nat) (t : String) :
    lookupAE (dictInsert m k v) t = if t = k then some v else lookupAE m t := by
  induction m with
  | nil =>
    by_cases ht : t = k
    · subst ht
      simp [dictInsert, lookupAE]
    · simp [dictInsert, lookupAE, List.find?_cons, ht, Ne.symm ht]
  | cons p ps ih =>
    unfold dictInsert
    by_cases hp : p.1 = k
    · rw [if_pos hp]
      by_cases ht : t = k
      · subst ht
        simp [lookupAE, List.find?_cons]
      · simp [lookupAE, List.find?_cons, ht, hp, Ne.symm ht]
    · rw [if_neg hp]
      by_cases hpt : p.1 = t
      · have htk : t ≠ k := fun h => hp (hpt.trans h)
        simp [lookupAE, List.find?_cons, hpt, htk]
      · have h1 : lookupAE (p :: dictInsert ps k v) t = lookupAE (dictInsert ps k v) t := by
          simp [lookupAE, List.find?_cons, hpt]
        have h2 : lookupAE (p :: ps) t = lookupAE ps t := by
          simp [lookupAE, List.find?_cons, hpt]
        rw [h1, ih, h2]

theorem find?_append_some {α : Type} (l₁ l₂ : List α) (p : α → Bool) (x : α)
    (h : l₁.find? p = some x) : (l₁ ++ l₂).find? p = some x := by
  induction l₁ with
  | nil => simp [List.find?] at h
  | cons a l ih =>
    rw [List.find?_cons] at h
    rw [List.cons_append, List.find?_cons]
    by_cases ha : p a = true
    · rw [ha] at h ⊢
      exact h
    · have hfa : p a = false := by simpa using ha
      rw [hfa] at h ⊢
      exact ih h

theorem lookupAE_load_aux :
    ∀ (rs : List AERecord) (acc : List (String × (String × Nat))) (t : String),
      lookupAE (rs.foldl (fun acc r => dictInsert acc r.aeTitle (r.ipAddr, r.port)) acc) t
        = match rs.reverse.find? (fun r => r.aeTitle = t) with
          | some r => some (r.ipAddr, r.port)
          | none => lookupAE acc t
  | [], acc, t => by simp
  | r :: rs, acc, t => by
    have ih := lookupAE_load_aux rs (dictInsert acc r.aeTitle (r.ipAddr, r.port)) t
    simp only [List.foldl_cons] at ih ⊢
    rw [ih, List.reverse_cons]
    cases hfind : rs.reverse.find? (fun r => r.aeTitle = t) with
    | some r' =>
      rw [find?_append_some _ _ _ _ hfind]
    | none =>
      rw [find?_append_none _ _ _ hfind]
      by_cases hrt : r.aeTitle = t
      · subst hrt
        simp [List.find?_cons, lookupAE_dictInsert]
      · have htr : t ≠ r.aeTitle := fun h => hrt h.symm
        simp [List.find?_cons, hrt, lookupAE_dictInsert, htr]

/-- C8: after loading, each title maps to the address of the last record
in the list bearing that title; in particular, for two records sharing a
title the second one wins, with no error. -/
theorem load_ae_config_last_wins (records : List AERecord) (title : String) :
    (lookupAE (load_ae_config records) title
      = (records.reverse.find? (fun r => r.aeTitle = title)).map
          (fun r => (r.ipAddr, r.port)))
    ∧ (∀ a1 p1 a2 p2,
        lookupAE (load_ae_config [⟨title, a1, p1⟩, ⟨title, a2, p2⟩]) title
          = some (a2, p2)) := by
  constructor
  · have h := lookupAE_load_aux records [] title
    unfold load_ae_config
    rw [h]
    cases hf : records.reverse.find? (fun r => r.aeTitle = title) <;> simp [lookupAE]
  · intro a1 p1 a2 p2
    have h := lookupAE_load_aux [⟨title, a1, p1⟩, ⟨title, a2, p2⟩] [] title
    unfold load_ae_config
    rw [h]
    simp [List.find?_cons]

example :
    lookupAE (load_ae_config
      [⟨"DUPLICATE_AE", "192.168.1.1", 11112⟩, ⟨"DUPLICATE_AE", "192.168.1.2", 11113⟩])
      "DUPLICATE_AE" = some ("192.168.1.2", 11113) := by decide

/-! ## MQTT→protocol translation path (spec §4.6)

Modelled from the spec: `process_mqtt_message` lives in
`ups_event_mqtt_broker_adapter.py`, absent from the sources. -/

/-- Diagnostics emitted by the translation path: the raw topic segments
on an undecodable topic, or the raw payload text on a JSON parse
failure. -/
inductive LogEntry where
  | topicSegments (segs : List (List Char))
  | jsonError (raw : List Char)
deriving DecidableEq

/-- The outcome of handling one received bus message: the log lines and
the outbound delivery call, if any — `(eventTypeId, workitem uid,
destination endpoint title)`. -/
structure ProcessResult where
  logs : List LogEntry
  delivery : Option (Nat × List Char × String)
deriving DecidableEq

/-- Modelled from the spec (§4.6): `process_mqtt_message` — decode the
topic (on invalid shape, log the raw segments and drop); parse the
payload as JSON (`parseOk = false` models a `json.loads` failure: log
with the raw payload text and drop); otherwise map the subtopic to the
event type (`state`→1, `cancelrequest`→2, anything else logged and
dropped) and call outbound delivery with the worker's own title.  The
parsed dataset content is opaque to the routing decision and elided. -/
def process_mqtt_message (workerTitle : String) (topic : List Char)
    (rawPayload : List Char) (parseOk : Bool) : ProcessResult :=
  match decodeTopic topic with
  | none =>
    { logs := [LogEntry.topicSegments (splitOnChar '/' topic)], delivery := none }
  | some (id, sub) =>
    if parseOk = false then
      { logs := [LogEntry.jsonError rawPayload], delivery := none }
    else if sub = "state".data then
      { logs := [], delivery := some (1, id, workerTitle) }
    else if sub = "cancelrequest".data then
      { logs := [], delivery := some (2, id, workerTitle) }
    else
      { logs := [LogEntry.topicSegments (splitOnChar '/' topic)], delivery := none }

/-- C7: a message whose topic does not decode as the strict 3-segment
form is dropped with its raw segments logged and no delivery; a message
with a valid topic but an unparsable JSON payload is dropped with the
raw payload logged and no delivery.  Concretely, `/invalid/topic` is
invalid and splits into `["", "invalid", "topic"]`. -/
theorem process_mqtt_message_drops_bad_input (workerTitle : String)
    (topic raw : List Char) (parseOk : Bool) :
    (decodeTopic topic = none →
      process_mqtt_message workerTitle topic raw parseOk
        = { logs := [LogEntry.topicSegments (splitOnChar '/' topic)], delivery := none })
    ∧ (∀ id sub, decodeTopic topic = some (id, sub) → parseOk = false →
      process_mqtt_message workerTitle topic raw parseOk
        = { logs := [LogEntry.jsonError raw], delivery := none })
    ∧ (decodeTopic "/invalid/topic".data = none
       ∧ splitOnChar '/' "/invalid/topic".data
           = ["".data, "invalid".data, "topic".data]) := by
  refine ⟨?_, ?_, by decide, by decide⟩
  · intro hdec
    unfold process_mqtt_message
    rw [hdec]
  · intro id sub hdec hpar
    unfold process_mqtt_message
    rw [hdec, hpar]
    simp

/-- Witness for C7 at the test's concrete inputs: the invalid topic and
the valid-topic/bad-JSON message. -/
theorem process_mqtt_message_drops_bad_input_witness :
    (process_mqtt_message "TEST_AE" "/invalid/topic".data "x".data true
      = { logs := [LogEntry.topicSegments (splitOnChar '/' "/invalid/topic".data)],
          delivery := none })
    ∧ (process_mqtt_message "TEST_AE" "/workitems/1.2.3.4/state".data
          "invalid json".data false
        = { logs := [LogEntry.jsonError "invalid json".data], delivery := none }) :=
  ⟨(process_mqtt_message_drops_bad_input "TEST_AE" "/invalid/topic".data
      "x".data true).1 (by decide),
   (process_mqtt_message_drops_bad_input "TEST_AE" "/workitems/1.2.3.4/state".data
      "invalid json".data false).2.1 "1.2.3.4".data "state".data (by decide) rfl⟩

/-! ## Inbound event report handler (spec §4.3)

Modelled from the spec: `handle_dimse_n_event` lives in
`ups_event_mqtt_broker_adapter.py`, absent from the sources. -/

/-- The fields of the N-EVENT-REPORT request primitive the handler reads,
plus the JSON wire form of the event body it republishes. -/
structure NEventRequest where
  eventTypeId : Nat
  affectedInstanceUid : List Char
  eventInfoJson : List Char
deriving DecidableEq

/-- The handler's observable outcome: the first yielded DIMSE status,
the publishes made on the shared outbound connection (topic, payload),
and how many reconnection polls preceded the publish. -/
structure NEventOutcome where
  status : Nat
  published : List (List Char × List Char)
  reconnectPolls : Nat
deriving DecidableEq

/-- Leading failed connectivity polls before the first successful one. -/
def waitPolls : List Bool → Nat
  | [] => 0
  | b :: bs => if b then 0 else waitPolls bs + 1

/-- Modelled from the spec (§4.3, inbound event report):
`handle_dimse_n_event` reads `eventTypeId` and `affectedInstanceUid`,
maps event type 1→`state` and 2→`cancelrequest` (any other value is a
protocol error: reject without publishing — the spec fixes no concrete
code, modelled as DICOM status `0x0113`, no-such-event-type), polls the
shared connection until it reports connected (`connPolls` is the
sequence of `is_connected()` results), publishes the JSON event body to
the encoded topic, and yields success status 0. -/
def handle_dimse_n_event (req : NEventRequest) (connPolls : List Bool) : NEventOutcome :=
  if req.eventTypeId = 1 then
    { status := 0,
      published := [(constructWorkitemTopic req.affectedInstanceUid "state".data,
        req.eventInfoJson)],
      reconnectPolls := waitPolls connPolls }
  else if req.eventTypeId = 2 then
    { status := 0,
      published := [(constructWorkitemTopic req.affectedInstanceUid "cancelrequest".data,
        req.eventInfoJson)],
      reconnectPolls := waitPolls connPolls }
  else
    { status := 275, published := [], reconnectPolls := 0 }

/-- C4: event type 1 publishes the JSON body to
`/workitems/{uid}/state` and yields status 0; event type 2 publishes to
`/workitems/{uid}/cancelrequest` and yields status 0; any other event
type is rejected with a non-success status and publishes nothing. -/
theorem handle_dimse_n_event_routes (req : NEventRequest) (connPolls : List Bool) :
    (req.eventTypeId = 1 →
      (handle_dimse_n_event req connPolls).status = 0
      ∧ (handle_dimse_n_event req connPolls).published
          = [(constructWorkitemTopic req.affectedInstanceUid "state".data,
              req.eventInfoJson)])
    ∧ (req.eventTypeId = 2 →
      (handle_dimse_n_event req connPolls).status = 0
      ∧ (handle_dimse_n_event req connPolls).published
          = [(constructWorkitemTopic req.affectedInstanceUid "cancelrequest".data,
              req.eventInfoJson)])
    ∧ (req.eventTypeId ≠ 1 → req.eventTypeId ≠ 2 →
      (handle_dimse_n_event req connPolls).published = []
      ∧ (handle_dimse_n_event req connPolls).status ≠ 0) := by
  refine ⟨?_, ?_, ?_⟩
  · intro h1
    unfold handle_dimse_n_event
    rw [if_pos h1]
    exact ⟨rfl, rfl⟩
  · intro h2
    have h1 : req.eventTypeId ≠ 1 := by omega
    unfold handle_dimse_n_event
    rw [if_neg h1, if_pos h2]
    exact ⟨rfl, rfl⟩
  · intro h1 h2
    unfold handle_dimse_n_event
    rw [if_neg h1, if_neg h2]
    exact ⟨rfl, by decide⟩

/-- Witness for C4 at the spec's example: event type 1 on workitem
`1.2.3.4` publishes to `/workitems/1.2.3.4/state` with success. -/
theorem handle_dimse_n_event_routes_witness :
    (handle_dimse_n_event ⟨1, "1.2.3.4".data, "payload".data⟩ [true]).status = 0
    ∧ (handle_dimse_n_event ⟨1, "1.2.3.4".data, "payload".data⟩ [true]).published
        = [(constructWorkitemTopic "1.2.3.4".data "state".data, "payload".data)] :=
  (handle_dimse_n_event_routes ⟨1, "1.2.3.4".data, "payload".data⟩ [true]).1 rfl

end DicomBrokerAdapter
